import Mathlib

/-!
# k8s-resourcequota-autoscaler: the ManagedResourceQuota reconciler

A shallow embedding of `controllers/managedresourcequota_controller.go` and of the
types of `api/v1beta1/managedresourcequota_types.go`.

* Go maps are association lists with distinct keys, in the order in which a `range`
  statement visits them; a map value is either nil or such a table.
* A Go function that can panic returns a `Go α`: either `returned a` or `panicked msg`.
* The Kubernetes client is a record of responses, one per call the reconciler can
  make; a run of `Reconcile` yields the list of calls it issued and its outcome.
* The libraries the controller calls (`html/template` with the sprig functions,
  `resource.ParseQuantity`) are a parameter, `TemplateLibrary`; `goLib` is a model of
  the fragment of them that the concrete examples need.
-/

set_option autoImplicit false

namespace ResourceQuotaAutoscaler

/-! ## Go values -/

/-- Outcome of a call of a Go function: normal return or panic. -/
inductive Go (α : Type) where
  | returned (a : α)
  | panicked (msg : String)
  deriving DecidableEq, Repr

/-- The type `corev1.ResourceName` (a string). -/
abbrev ResourceName := String

/-- The type `resource.Quantity`, held as the number `value * 10 ^ scale` it denotes
together with its `Format`. The cached string and the choice between the two internal
amounts are not represented. -/
structure Quantity where
  value : Int
  scale : Int
  format : String
  deriving DecidableEq, Repr

/-- The zero value `resource.Quantity{}`; every error return of
`resource.ParseQuantity` carries it as first result. -/
def Quantity.zero : Quantity := ⟨0, 0, ""⟩

/-- The quantity that `resource.ParseQuantity` yields for the decimal numeral of `n`. -/
def Quantity.ofNat (n : Nat) : Quantity := ⟨n, 0, "DecimalSI"⟩

/-- Assignment `m[k] = v` on the table of a non-nil Go map. -/
def mapSet {ν : Type} (m : List (String × ν)) (k : String) (v : ν) : List (String × ν) :=
  match m with
  | [] => [(k, v)]
  | (k', v') :: rest => if k' = k then (k, v) :: rest else (k', v') :: mapSet rest k v

/-- Lookup `m[k]` with the comma-ok result, on the table of a Go map. -/
def mapGet {ν : Type} (m : List (String × ν)) (k : String) : Option ν :=
  match m with
  | [] => none
  | (k', v') :: rest => if k' = k then some v' else mapGet rest k

/-- The keys of a table. -/
def mapKeys {ν : Type} (m : List (String × ν)) : List String := m.map Prod.fst

/-- A value of type `map[corev1.ResourceName]resource.Quantity`: `none` is the nil
map. -/
abbrev QuantityMap := Option (List (ResourceName × Quantity))

/-- The type `v1beta1.ResourceList`, `map[corev1.ResourceName]string`, as the entries a
`range` statement visits, in that order (a nil map has no entries). -/
abbrev ResourceList := List (ResourceName × String)

/-- The dynamic types of the two values the reconciler hands to `reflect.DeepEqual`:
the defined type `corev1.ResourceList` (the type of `ResourceQuotaSpec.Hard`) and the
map type `map[corev1.ResourceName]resource.Quantity` (the result type of
`renderHardLimits`). -/
inductive GoType where
  | coreResourceList
  | mapResourceNameQuantity
  deriving DecidableEq, Repr

/-- An interface value (`any`) holding a map of quantities. -/
structure AnyValue where
  dynType : GoType
  value : QuantityMap
  deriving DecidableEq, Repr

/-- The `Map` case of reflect's `deepValueEqual`: both nil or both non-nil, equal
lengths, and every key of the first has a deeply equal value in the second. -/
def deepValueEqual (x y : QuantityMap) : Bool :=
  match x, y with
  | none, none => true
  | some a, some b =>
    a.length == b.length && a.all (fun p => mapGet b p.1 == some p.2)
  | _, _ => false

/-- The function `reflect.DeepEqual(x, y any)` on two non-nil interface values: values
of distinct types are never deeply equal. -/
def reflectDeepEqual (x y : AnyValue) : Bool :=
  if x.dynType ≠ y.dynType then false else deepValueEqual x.value y.value

/-! ## API objects -/

/-- The type `types.NamespacedName`. -/
structure NamespacedName where
  Namespace : String
  Name : String
  deriving DecidableEq, Repr

/-- The type `schema.GroupVersionKind`. -/
structure GroupVersionKind where
  Group : String
  Version : String
  Kind : String
  deriving DecidableEq, Repr

/-- The type `metav1.OwnerReference`. -/
structure OwnerReference where
  APIVersion : String
  Kind : String
  Name : String
  UID : String
  Controller : Option Bool
  BlockOwnerDeletion : Option Bool
  deriving DecidableEq, Repr

/-- The fields of `metav1.ObjectMeta` that the controller reads or writes, and the
ones the API server fills in. -/
structure ObjectMeta where
  Name : String
  Namespace : String
  UID : String
  ResourceVersion : String
  Labels : Option (List (String × String))
  Annotations : Option (List (String × String))
  OwnerReferences : List OwnerReference
  deriving DecidableEq, Repr

/-- The type `corev1.ScopedResourceSelectorRequirement`. -/
structure ScopedResourceSelectorRequirement where
  ScopeName : String
  Operator : String
  Values : List String
  deriving DecidableEq, Repr

/-- The type `corev1.ScopeSelector`. -/
structure ScopeSelector where
  MatchExpressions : List ScopedResourceSelectorRequirement
  deriving DecidableEq, Repr

/-- The type `v1beta1.ResourceQuotaTemplateSpec`. -/
structure ResourceQuotaTemplateSpec where
  Hard : ResourceList
  Scopes : List String
  ScopeSelector : Option ScopeSelector
  deriving DecidableEq, Repr

/-- The type `v1beta1.ManagedResourceQuotaSpec`. -/
structure ManagedResourceQuotaSpec where
  Template : ResourceQuotaTemplateSpec
  deriving DecidableEq, Repr

/-- The type `v1beta1.ManagedResourceQuota` (its status has no fields). -/
structure ManagedResourceQuota where
  Meta : ObjectMeta
  Spec : ManagedResourceQuotaSpec
  deriving DecidableEq, Repr

/-- The type `corev1.ResourceQuotaSpec`. -/
structure ResourceQuotaSpec where
  Hard : QuantityMap
  Scopes : List String
  ScopeSelector : Option ScopeSelector
  deriving DecidableEq, Repr

/-- The type `corev1.ResourceQuotaStatus`. -/
structure ResourceQuotaStatus where
  Hard : QuantityMap
  Used : QuantityMap
  deriving DecidableEq, Repr

/-- The type `corev1.ResourceQuota`. -/
structure ResourceQuota where
  Meta : ObjectMeta
  Spec : ResourceQuotaSpec
  Status : ResourceQuotaStatus
  deriving DecidableEq, Repr

/-- The type `corev1.Node`, of which only the number of items is used. -/
structure Node where
  Name : String
  deriving DecidableEq, Repr

/-- An error returned by the client: its status reason and message. -/
structure APIError where
  Reason : String
  Message : String
  deriving DecidableEq, Repr

/-- The function `errors.IsNotFound`: the reason is `metav1.StatusReasonNotFound`. -/
def IsNotFound (err : APIError) : Bool := err.Reason == "NotFound"

/-- The type `ctrl.Result`; `RequeueAfter` in nanoseconds. -/
structure Result where
  Requeue : Bool
  RequeueAfter : Nat
  deriving DecidableEq, Repr

/-- The value `ctrl.Result{}`. -/
def Result.empty : Result := ⟨false, 0⟩

/-- The value `ctrl.Result{Requeue: true}`. -/
def Result.requeue : Result := ⟨true, 0⟩

/-! ## Collaborators -/

/-- The library functions `renderHardLimits` calls, over the type `T` of parsed
templates. -/
structure TemplateLibrary (T : Type) where
  /-- The call `template.New("hard").Funcs(sprig.FuncMap()).Parse(text)`. -/
  Parse : String → Except String T
  /-- The call `t.Execute(&tpl, struct{ Nodes int }{nodes})`: the text written to the
  buffer, or the error. -/
  Execute : T → Nat → Except String String
  /-- The call `resource.ParseQuantity(text)`; on an error the Go function returns
  `Quantity{}` as its first result. -/
  ParseQuantity : String → Except String Quantity

/-- The part of `runtime.Scheme` that `SetControllerReference` consults: the
GroupVersionKind registered for the ManagedResourceQuota type, if any. -/
structure Scheme where
  managedResourceQuotaKind : Option GroupVersionKind
  deriving DecidableEq, Repr

/-- The responses of `client.Client` to the calls `Reconcile` can make. `Create` and
`Update` answer with the error, if any. -/
structure Client where
  GetManagedResourceQuota : NamespacedName → Except APIError ManagedResourceQuota
  ListNodes : Except APIError (List Node)
  GetResourceQuota : NamespacedName → Except APIError ResourceQuota
  Create : ResourceQuota → Option APIError
  Update : ResourceQuota → Option APIError

/-- The type `ManagedResourceQuotaReconciler` (the logger has no effect on the
result). -/
structure ManagedResourceQuotaReconciler where
  Client : Client
  Scheme : Scheme

/-- The type `ctrl.Request`. -/
structure Request where
  NamespacedName : NamespacedName
  deriving DecidableEq, Repr

/-- A client call issued by `Reconcile`. -/
inductive Call where
  | GetManagedResourceQuota (key : NamespacedName)
  | ListNodes
  | GetResourceQuota (key : NamespacedName)
  | Create (obj : ResourceQuota)
  | Update (obj : ResourceQuota)
  deriving DecidableEq, Repr

/-- The error with which the client answers a call (`none` for nil). -/
def Client.errorOf (c : Client) : Call → Option APIError
  | .GetManagedResourceQuota key =>
    match c.GetManagedResourceQuota key with
    | .error err => some err
    | .ok _ => none
  | .ListNodes =>
    match c.ListNodes with
    | .error err => some err
    | .ok _ => none
  | .GetResourceQuota key =>
    match c.GetResourceQuota key with
    | .error err => some err
    | .ok _ => none
  | .Create obj => c.Create obj
  | .Update obj => c.Update obj

/-- One run of `Reconcile`: the client calls issued, in order, and how the function
ended: with `(ctrl.Result, error)` or with a panic. -/
structure Run where
  calls : List Call
  outcome : Go (Result × Option APIError)
  deriving DecidableEq, Repr

/-- The objects passed to `Create` during a run. -/
def Run.creates (run : Run) : List ResourceQuota :=
  run.calls.filterMap fun
    | .Create obj => some obj
    | _ => none

/-- The objects passed to `Update` during a run. -/
def Run.updates (run : Run) : List ResourceQuota :=
  run.calls.filterMap fun
    | .Update obj => some obj
    | _ => none

/-- The number of node `List` calls of a run. -/
def Run.lists (run : Run) : Nat :=
  run.calls.countP fun
    | .ListNodes => true
    | _ => false

/-- The number of `Get` calls for a ResourceQuota of a run. -/
def Run.quotaGets (run : Run) : Nat :=
  run.calls.countP fun
    | .GetResourceQuota _ => true
    | _ => false

/-- Whether a call is one of the two `Get` calls. -/
def Call.isGet : Call → Bool
  | .GetManagedResourceQuota _ => true
  | .GetResourceQuota _ => true
  | _ => false

/-! ## The controller -/

/-- The first result of `resource.ParseQuantity(text)`, which is what the statement
`m[key], _ = resource.ParseQuantity(text)` stores: the parsed quantity, or `Quantity{}`
when the call returns an error. -/
def TemplateLibrary.firstResult {T : Type} (lib : TemplateLibrary T) (text : String) :
    Quantity :=
  match lib.ParseQuantity text with
  | .ok q => q
  | .error _ => Quantity.zero

/-- The loop of `renderHardLimits` over the remaining entries, `m` being the map built
so far. `template.Must` panics when `Parse` fails; a failing `Execute` makes the
function return nil; the error of `ParseQuantity` is discarded and its first result
stored. -/
def renderLoop {T : Type} (lib : TemplateLibrary T) (nodes : Nat) :
    ResourceList → List (ResourceName × Quantity) → Go QuantityMap
  | [], m => .returned (some m)
  | (key, element) :: rest, m =>
    match lib.Parse element with
    | .error err => .panicked err
    | .ok t =>
      match lib.Execute t nodes with
      | .error _ => .returned none
      | .ok tpl =>
        renderLoop lib nodes rest (mapSet m key (lib.firstResult tpl))

/-- The function `renderHardLimits`. -/
def renderHardLimits {T : Type} (lib : TemplateLibrary T) (hard : ResourceList)
    (nodes : Nat) : Go QuantityMap :=
  renderLoop lib nodes hard []

/-- The function `labelsForResourceQuota`. -/
def labelsForResourceQuota (name : String) : List (String × String) :=
  [("app.kubernetes.io/managed-by", "k8s-resourcequota-autoscaler"),
   ("app.kubernetes.io/name", name)]

/-- The method `GroupVersion().String()` of a GroupVersionKind. -/
def GroupVersionKind.apiVersion (gvk : GroupVersionKind) : String :=
  if gvk.Group = "" then gvk.Version else gvk.Group ++ "/" ++ gvk.Version

/-- The owner reference `SetControllerReference` builds for an owner. -/
def controllerRef (gvk : GroupVersionKind) (owner : ObjectMeta) : OwnerReference :=
  { APIVersion := gvk.apiVersion, Kind := gvk.Kind, Name := owner.Name, UID := owner.UID,
    Controller := some true, BlockOwnerDeletion := some true }

/-- The function `validateOwner` of controllerutil: `true` when it returns nil. -/
def validateOwner (owner object : ObjectMeta) : Bool :=
  if owner.Namespace ≠ "" then
    if object.Namespace = "" then false
    else if owner.Namespace ≠ object.Namespace then false
    else true
  else true

/-- The function `ctrl.SetControllerReference(owner, controlled, scheme)` for a
controlled object that has no owner reference yet, as the one built by
`resourcequotaforManagedResourceQuota`: the controlled object's metadata afterwards and
whether the call returned nil. The owner is validated, its GroupVersionKind is looked up
in the scheme, and the controller reference is added; when the call returns an error
the object is left unchanged. -/
def SetControllerReference (owner controlled : ObjectMeta) (scheme : Scheme) :
    ObjectMeta × Bool :=
  if !validateOwner owner controlled then (controlled, false)
  else match scheme.managedResourceQuotaKind with
    | none => (controlled, false)
    | some gvk =>
      ({ controlled with
          OwnerReferences := controlled.OwnerReferences ++ [controllerRef gvk owner] },
       true)

/-- The method `resourcequotaforManagedResourceQuota`. The error of
`SetControllerReference` is discarded. -/
def resourcequotaforManagedResourceQuota {T : Type} (lib : TemplateLibrary T)
    (r : ManagedResourceQuotaReconciler) (m : ManagedResourceQuota) (nodes : Nat) :
    Go ResourceQuota :=
  let ls := labelsForResourceQuota m.Meta.Name
  match renderHardLimits lib m.Spec.Template.Hard nodes with
  | .panicked msg => .panicked msg
  | .returned hard =>
    let rq : ResourceQuota :=
      { Meta := { Name := m.Meta.Name, Namespace := m.Meta.Namespace, UID := "",
                  ResourceVersion := "", Labels := some ls, Annotations := none,
                  OwnerReferences := [] },
        Spec := { Hard := hard, Scopes := m.Spec.Template.Scopes,
                  ScopeSelector := m.Spec.Template.ScopeSelector },
        Status := { Hard := none, Used := none } }
    .returned { rq with Meta := (SetControllerReference m.Meta rq.Meta r.Scheme).1 }

/-- The method `Reconcile`. -/
def Reconcile {T : Type} (lib : TemplateLibrary T) (r : ManagedResourceQuotaReconciler)
    (req : Request) : Run :=
  let getOwner := Call.GetManagedResourceQuota req.NamespacedName
  match r.Client.GetManagedResourceQuota req.NamespacedName with
  | .error err =>
    if IsNotFound err then
      ⟨[getOwner], .returned (Result.empty, none)⟩
    else
      ⟨[getOwner], .returned (Result.empty, some err)⟩
  | .ok managedResourceQuota =>
    match r.Client.ListNodes with
    | .error err =>
      ⟨[getOwner, .ListNodes], .returned (Result.empty, some err)⟩
    | .ok nodeList =>
      let nodeCount := nodeList.length
      let key : NamespacedName :=
        { Name := managedResourceQuota.Meta.Name,
          Namespace := managedResourceQuota.Meta.Namespace }
      let calls : List Call := [getOwner, .ListNodes, .GetResourceQuota key]
      match r.Client.GetResourceQuota key with
      | .error err =>
        if IsNotFound err then
          match resourcequotaforManagedResourceQuota lib r managedResourceQuota nodeCount with
          | .panicked msg => ⟨calls, .panicked msg⟩
          | .returned rq =>
            match r.Client.Create rq with
            | some err => ⟨calls ++ [.Create rq], .returned (Result.empty, some err)⟩
            | none => ⟨calls ++ [.Create rq], .returned (Result.requeue, none)⟩
        else
          ⟨calls, .returned (Result.empty, some err)⟩
      | .ok found =>
        match renderHardLimits lib managedResourceQuota.Spec.Template.Hard nodeCount with
        | .panicked msg => ⟨calls, .panicked msg⟩
        | .returned hard =>
          if !reflectDeepEqual ⟨.coreResourceList, found.Spec.Hard⟩
              ⟨.mapResourceNameQuantity, hard⟩ then
            let found := { found with Spec := { found.Spec with Hard := hard } }
            match r.Client.Update found with
            | some err => ⟨calls ++ [.Update found], .returned (Result.empty, some err)⟩
            | none => ⟨calls ++ [.Update found], .returned (Result.requeue, none)⟩
          else
            ⟨calls, .returned (Result.empty, none)⟩

/-! ## A simulated cluster

The responses of an API server in which every call succeeds, and the effect of the
calls of a run on its objects. -/

/-- The objects of a cluster that the reconciler reads or writes. -/
structure Cluster where
  managedResourceQuotas : List ManagedResourceQuota
  nodes : List Node
  resourceQuotas : List ResourceQuota
  deriving DecidableEq, Repr

/-- The error a `Get` of an absent object returns. -/
def notFoundError (key : NamespacedName) : APIError :=
  ⟨"NotFound", key.Namespace ++ "/" ++ key.Name ++ " not found"⟩

/-- Whether object metadata carries the given namespace and name. -/
def ObjectMeta.hasKey (m : ObjectMeta) (key : NamespacedName) : Bool :=
  m.Namespace == key.Namespace && m.Name == key.Name

/-- The client of a cluster: `Get` returns the stored object or not-found, `List`
returns the nodes, `Create` and `Update` return nil. -/
def Cluster.client (c : Cluster) : Client where
  GetManagedResourceQuota := fun key =>
    match c.managedResourceQuotas.find? (fun m => m.Meta.hasKey key) with
    | some m => .ok m
    | none => .error (notFoundError key)
  ListNodes := .ok c.nodes
  GetResourceQuota := fun key =>
    match c.resourceQuotas.find? (fun q => q.Meta.hasKey key) with
    | some q => .ok q
    | none => .error (notFoundError key)
  Create := fun _ => none
  Update := fun _ => none

/-- The effect of one call on the cluster, whose client lets every call succeed:
`Create` stores the object, `Update` replaces the stored object of the same namespace
and name. -/
def Cluster.apply (c : Cluster) : Call → Cluster
  | .Create obj => { c with resourceQuotas := c.resourceQuotas ++ [obj] }
  | .Update obj =>
    { c with resourceQuotas := c.resourceQuotas.map fun q =>
        if q.Meta.hasKey ⟨obj.Meta.Namespace, obj.Meta.Name⟩ then obj else q }
  | _ => c

/-- One `Reconcile` call against a cluster: the run and the cluster afterwards. -/
def Cluster.reconcile {T : Type} (lib : TemplateLibrary T) (scheme : Scheme) (c : Cluster)
    (req : Request) : Run × Cluster :=
  let run := Reconcile lib ⟨c.client, scheme⟩ req
  (run, run.calls.foldl Cluster.apply c)

/-- The `Spec.Hard` of the stored ResourceQuota with the given key, if there is one. -/
def Cluster.enforcedHard (c : Cluster) (key : NamespacedName) : Option QuantityMap :=
  (c.resourceQuotas.find? (fun q => q.Meta.hasKey key)).map fun q => q.Spec.Hard

/-! ## A model of the libraries on a fragment

The fragment: templates made of literal text without the character `<` (so that
`html/template` stays in its plain text context and copies the text unchanged) and of
actions that are one field reference, `{{.Field}}`, with blanks allowed around it and a
name of ASCII letters, digits and `_` that does not start with a digit; quantities
written as unsigned decimal integers. On this fragment the functions below answer as
`html/template` and `resource.ParseQuantity` do. Outside the fragment they answer with an
error: `Parse` for any other action, `Execute` for literal text with a `<`, and
`ParseQuantity` for any other quantity syntax. -/

/-- A node of a parsed template of the fragment. -/
inductive TemplateNode where
  | text (s : List Char)
  | field (name : List Char)
  deriving DecidableEq, Repr

/-- The left delimiter character. -/
def lbrace : Char := Char.ofNat 123

/-- The right delimiter character. -/
def rbrace : Char := Char.ofNat 125

/-- Whether a character can occur in a field name of the fragment: an ASCII letter or
digit, or `_`. -/
def isFieldChar (c : Char) : Bool := c.isAlphanum || c == (Char.ofNat 95)

/-- Whether the characters after the dot are a field name of the fragment. A dot
followed by a digit starts a number in the template lexer, not a field. -/
def isFieldName : List Char → Bool
  | [] => false
  | c :: rest => !c.isDigit && isFieldChar c && rest.all isFieldChar

/-- Removal of the blanks at both ends. -/
def trimBlanks (cs : List Char) : List Char :=
  ((cs.dropWhile (· == (Char.ofNat 32))).reverse.dropWhile (· == (Char.ofNat 32))).reverse

/-- The node of an action with the given body: a field reference, or a syntax
error. -/
def parseAction (body : List Char) : Except String TemplateNode :=
  match trimBlanks body with
  | c :: name =>
    if c == (Char.ofNat 46) && isFieldName name then .ok (.field name)
    else .error "unexpected token in action"
  | [] => .error "missing value for command"

/-- The text node for the literal text collected so far (held reversed), if any. -/
def pushText (cur : List Char) (acc : List TemplateNode) : List TemplateNode :=
  if cur.isEmpty then acc else .text cur.reverse :: acc

/-- The lexer and parser of the fragment: `inAction` tells whether an action is open,
`cur` holds the characters of the current item and `acc` the nodes so far, both
reversed. An action left open at the end of the text is a syntax error. -/
def parseTemplate : List Char → Bool → List Char → List TemplateNode →
    Except String (List TemplateNode)
  | [], false, cur, acc => .ok (pushText cur acc).reverse
  | [], true, _, _ => .error "unclosed action"
  | [c], inAction, cur, acc =>
    if inAction then .error "unclosed action" else .ok (pushText (c :: cur) acc).reverse
  | c :: d :: rest, inAction, cur, acc =>
    if !inAction && c == lbrace && d == lbrace then
      parseTemplate rest true [] (pushText cur acc)
    else if inAction && c == rbrace && d == rbrace then
      match parseAction cur.reverse with
      | .error e => .error e
      | .ok node => parseTemplate rest false [] (node :: acc)
    else parseTemplate (d :: rest) inAction (c :: cur) acc

/-- The decimal digit character of a number below ten. -/
def digitChar (d : Nat) : Char := Char.ofNat (48 + d)

/-- The decimal digits of `n` in front of `acc`, with `fuel` bounding the number of
digits. -/
def formatDigits : Nat → Nat → List Char → List Char
  | 0, _, acc => acc
  | fuel + 1, n, acc =>
    if n < 10 then digitChar n :: acc
    else formatDigits fuel (n / 10) (digitChar (n % 10) :: acc)

/-- The decimal numeral of a non-negative `int`, as the template engine prints it. -/
def formatInt (n : Nat) : List Char := formatDigits (n + 1) n []

/-- Execution of the parsed nodes with the data `struct{ Nodes int }`, in the plain
text context of `html/template`: text without `<` is copied, the field `Nodes` prints the
node count (its escaped form is the numeral itself), any other field is an evaluation
error. Text with a `<` is outside the fragment. -/
def executeNodes (nodes : Nat) : List TemplateNode → List Char → Except String String
  | [], out => .ok (String.mk out)
  | .text s :: rest, out =>
    if s.any (· == (Char.ofNat 60)) then .error "markup is outside the modelled fragment"
    else executeNodes nodes rest (out ++ s)
  | .field name :: rest, out =>
    if name = "Nodes".data then executeNodes nodes rest (out ++ formatInt nodes)
    else .error "can not evaluate field"

/-- The value of a string of decimal digits read after the digits worth `acc`, or
`none` when a character is not a digit. -/
def readDigits : List Char → Nat → Option Nat
  | [], acc => some acc
  | c :: rest, acc => if c.isDigit then readDigits rest (10 * acc + (c.toNat - 48)) else none

/-- The fragment of `resource.ParseQuantity`: a non-empty string of decimal digits is
the quantity of that integer in the DecimalSI format; the empty string and a string
with a character that is no digit are errors of the fragment. -/
def parseQuantityDigits (s : String) : Except String Quantity :=
  if s.data.isEmpty then .error "quantities must match the regular expression"
  else match readDigits s.data 0 with
    | some n => .ok (Quantity.ofNat n)
    | none => .error "quantities must match the regular expression"

/-- The model of the libraries on the fragment. -/
def goLib : TemplateLibrary (List TemplateNode) where
  Parse := fun text => parseTemplate text.data false [] []
  Execute := fun t nodes => executeNodes nodes t []
  ParseQuantity := parseQuantityDigits

/-! ## Concrete objects -/

/-- The template of the scaling example, `{"pods": "{{.Nodes}}"}`. -/
def podsTemplate : ResourceList := [("pods", "\x7b\x7b.Nodes\x7d\x7d")]

/-- A template whose expression has invalid syntax: an action that is never closed. -/
def unclosedTemplate : ResourceList := [("cpu", "\x7b\x7b")]

/-- A template whose expression parses and fails to evaluate: the data has no field
`Missing`. -/
def missingFieldTemplate : ResourceList := [("pods", "\x7b\x7b.Missing\x7d\x7d")]

/-- A template whose first expression renders text that is no quantity. -/
def wordTemplate : ResourceList := [("pods", "many"), ("services", "\x7b\x7b.Nodes\x7d\x7d")]

/-- The key of the example objects. -/
def exampleKey : NamespacedName := ⟨"team-a", "team-quota"⟩

/-- The request for the example key. -/
def exampleRequest : Request := ⟨exampleKey⟩

/-- The metadata of the example desired object. -/
def ownerMeta : ObjectMeta :=
  { Name := "team-quota", Namespace := "team-a", UID := "7f1c", ResourceVersion := "12",
    Labels := none, Annotations := none, OwnerReferences := [] }

/-- A desired object with the given limit expressions. -/
def ownerWith (hard : ResourceList) : ManagedResourceQuota :=
  { Meta := ownerMeta,
    Spec := { Template := { Hard := hard, Scopes := ["BestEffort"], ScopeSelector := none } } }

/-- An enforced object with the given hard limits, as stored by the API server. -/
def enforcedWith (hard : QuantityMap) : ResourceQuota :=
  { Meta := { Name := "team-quota", Namespace := "team-a", UID := "a3d9",
              ResourceVersion := "40",
              Labels := some (labelsForResourceQuota "team-quota"),
              Annotations := none, OwnerReferences := [] },
    Spec := { Hard := hard, Scopes := ["BestEffort"], ScopeSelector := none },
    Status := { Hard := hard, Used := some [("pods", Quantity.ofNat 2)] } }

/-- A scheme in which the ManagedResourceQuota type is registered. -/
def exampleScheme : Scheme :=
  ⟨some ⟨"k8s-resourcequota-autoscaler.m21r.de", "v1beta1", "ManagedResourceQuota"⟩⟩

/-- Five nodes. -/
def fiveNodes : List Node := [⟨"n1"⟩, ⟨"n2"⟩, ⟨"n3"⟩, ⟨"n4"⟩, ⟨"n5"⟩]

/-- A cluster with the desired object of the given template, five nodes and the given
enforced objects. -/
def clusterWith (hard : ResourceList) (quotas : List ResourceQuota) : Cluster :=
  ⟨[ownerWith hard], fiveNodes, quotas⟩

/-- An error other than not-found. -/
def serverTimeout : APIError := ⟨"ServerTimeout", "the server was unable to respond"⟩

/-- The client of the example cluster with no enforced object, of which the node
listing fails. -/
def listFailingClient : Client :=
  { (clusterWith podsTemplate []).client with ListNodes := .error serverTimeout }

/-- An enforced object whose limit of three pods differs from the five rendered for the
example cluster. -/
def staleQuota : ResourceQuota := enforcedWith (some [("pods", Quantity.ofNat 3)])

/-- An enforced object whose limits are the ones rendered for the example cluster. -/
def currentQuota : ResourceQuota := enforcedWith (some [("pods", Quantity.ofNat 5)])

/-- The object `Reconcile` sends to `Update` when the limits of `currentQuota` fail
to render: `currentQuota` with a nil `Spec.Hard`. -/
def enforcedHardNil : ResourceQuota :=
  { currentQuota with Spec := { currentQuota.Spec with Hard := none } }

/-- The example cluster without enforced object after one `Reconcile` call. -/
def afterFirstCall : Cluster :=
  (Cluster.reconcile goLib exampleScheme (clusterWith podsTemplate []) exampleRequest).2

/-- The example cluster without enforced object after two `Reconcile` calls. -/
def afterSecondCall : Cluster :=
  (Cluster.reconcile goLib exampleScheme afterFirstCall exampleRequest).2

/-! ## Lemmas on the branches of `Reconcile` -/

/-- The comparison `Reconcile` makes is between values of two distinct types, so it
is false whatever the two maps hold. -/
theorem reflectDeepEqual_distinct_types (a b : QuantityMap) :
    reflectDeepEqual ⟨.coreResourceList, a⟩ ⟨.mapResourceNameQuantity, b⟩ = false := by
  simp [reflectDeepEqual]

/-- The run of `Reconcile` when the desired object is not found. -/
theorem Reconcile_of_owner_notFound {T : Type} (lib : TemplateLibrary T)
    (r : ManagedResourceQuotaReconciler) (req : Request) (err : APIError)
    (hget : r.Client.GetManagedResourceQuota req.NamespacedName = .error err)
    (hnf : IsNotFound err = true) :
    Reconcile lib r req =
      ⟨[.GetManagedResourceQuota req.NamespacedName], .returned (Result.empty, none)⟩ := by
  simp [Reconcile, hget, hnf]

/-- The run of `Reconcile` when the enforced object exists and the limits render: the
fetched object is sent to `Update` with its `Spec.Hard` replaced. -/
theorem Reconcile_of_found {T : Type} (lib : TemplateLibrary T)
    (r : ManagedResourceQuotaReconciler) (req : Request) (owner : ManagedResourceQuota)
    (nodeList : List Node) (found : ResourceQuota) (hard : QuantityMap)
    (hget : r.Client.GetManagedResourceQuota req.NamespacedName = .ok owner)
    (hlist : r.Client.ListNodes = .ok nodeList)
    (hfound : r.Client.GetResourceQuota ⟨owner.Meta.Namespace, owner.Meta.Name⟩ = .ok found)
    (hrender : renderHardLimits lib owner.Spec.Template.Hard nodeList.length = .returned hard) :
    Reconcile lib r req =
      ⟨[.GetManagedResourceQuota req.NamespacedName, .ListNodes,
        .GetResourceQuota ⟨owner.Meta.Namespace, owner.Meta.Name⟩,
        .Update { found with Spec := { found.Spec with Hard := hard } }],
       match r.Client.Update { found with Spec := { found.Spec with Hard := hard } } with
       | some err => .returned (Result.empty, some err)
       | none => .returned (Result.requeue, none)⟩ := by
  simp only [Reconcile, hget, hlist, hfound, hrender, reflectDeepEqual_distinct_types]
  cases r.Client.Update { found with Spec := { found.Spec with Hard := hard } } <;> simp

/-- The run of `Reconcile` when the enforced object is not found and the object to
create is built. -/
theorem Reconcile_of_absent {T : Type} (lib : TemplateLibrary T)
    (r : ManagedResourceQuotaReconciler) (req : Request) (owner : ManagedResourceQuota)
    (nodeList : List Node) (err : APIError) (rq : ResourceQuota)
    (hget : r.Client.GetManagedResourceQuota req.NamespacedName = .ok owner)
    (hlist : r.Client.ListNodes = .ok nodeList)
    (hquota : r.Client.GetResourceQuota ⟨owner.Meta.Namespace, owner.Meta.Name⟩ = .error err)
    (hnf : IsNotFound err = true)
    (hbuild : resourcequotaforManagedResourceQuota lib r owner nodeList.length = .returned rq) :
    Reconcile lib r req =
      ⟨[.GetManagedResourceQuota req.NamespacedName, .ListNodes,
        .GetResourceQuota ⟨owner.Meta.Namespace, owner.Meta.Name⟩, .Create rq],
       match r.Client.Create rq with
       | some err => .returned (Result.empty, some err)
       | none => .returned (Result.requeue, none)⟩ := by
  simp only [Reconcile, hget, hlist, hquota, hnf, hbuild]
  cases r.Client.Create rq <;> simp

/-- When the owner and the controlled object share their namespace, `validateOwner`
returns nil. -/
theorem validateOwner_same_namespace (owner object : ObjectMeta)
    (h : object.Namespace = owner.Namespace) : validateOwner owner object = true := by
  unfold validateOwner
  by_cases hns : owner.Namespace = "" <;> simp [hns, h]

/-- The object `resourcequotaforManagedResourceQuota` builds when the limits render and
the scheme knows the owner's type. -/
theorem resourcequotafor_of_render {T : Type} (lib : TemplateLibrary T)
    (r : ManagedResourceQuotaReconciler) (owner : ManagedResourceQuota) (nodes : Nat)
    (hard : QuantityMap) (gvk : GroupVersionKind)
    (hrender : renderHardLimits lib owner.Spec.Template.Hard nodes = .returned hard)
    (hscheme : r.Scheme.managedResourceQuotaKind = some gvk) :
    resourcequotaforManagedResourceQuota lib r owner nodes = .returned
      { Meta := { Name := owner.Meta.Name, Namespace := owner.Meta.Namespace, UID := "",
                  ResourceVersion := "",
                  Labels := some [("app.kubernetes.io/managed-by", "k8s-resourcequota-autoscaler"),
                    ("app.kubernetes.io/name", owner.Meta.Name)],
                  Annotations := none,
                  OwnerReferences := [⟨gvk.apiVersion, gvk.Kind, owner.Meta.Name,
                    owner.Meta.UID, some true, some true⟩] },
        Spec := { Hard := hard, Scopes := owner.Spec.Template.Scopes,
                  ScopeSelector := owner.Spec.Template.ScopeSelector },
        Status := { Hard := none, Used := none } } := by
  simp [resourcequotaforManagedResourceQuota, hrender, SetControllerReference,
    validateOwner_same_namespace, hscheme, labelsForResourceQuota, controllerRef]

/-! ## Claims about `Reconcile` -/

/-- C5. Deleted-owner short-circuit: when the Get of the desired ManagedResourceQuota
answers not-found, `Reconcile` returns `Result{}` (no requeue) with a nil error, and the
only client call of the run is that Get: no node List, no Get of the ResourceQuota, no
Create and no Update. -/
theorem Reconcile_deleted_owner_short_circuit {T : Type} (lib : TemplateLibrary T)
    (r : ManagedResourceQuotaReconciler) (req : Request) (err : APIError)
    (hget : r.Client.GetManagedResourceQuota req.NamespacedName = .error err)
    (hnf : IsNotFound err = true) :
    (Reconcile lib r req).outcome = .returned (⟨false, 0⟩, none) ∧
    (Reconcile lib r req).calls = [.GetManagedResourceQuota req.NamespacedName] ∧
    (Reconcile lib r req).lists = 0 ∧
    (Reconcile lib r req).quotaGets = 0 ∧
    (Reconcile lib r req).creates = [] ∧
    (Reconcile lib r req).updates = [] := by
  rw [Reconcile_of_owner_notFound lib r req err hget hnf]
  simp [Run.lists, Run.quotaGets, Run.creates, Run.updates, Result.empty]

/-- Witness of C5: a cluster that holds an enforced quota and no desired object. -/
theorem Reconcile_deleted_owner_short_circuit_witness :
    (Cluster.client ⟨[], fiveNodes, [enforcedWith none]⟩).GetManagedResourceQuota
        exampleRequest.NamespacedName = .error (notFoundError exampleKey) ∧
    IsNotFound (notFoundError exampleKey) = true ∧
    (Reconcile goLib ⟨Cluster.client ⟨[], fiveNodes, [enforcedWith none]⟩, exampleScheme⟩
        exampleRequest).outcome = .returned (⟨false, 0⟩, none) ∧
    (Reconcile goLib ⟨Cluster.client ⟨[], fiveNodes, [enforcedWith none]⟩, exampleScheme⟩
        exampleRequest).calls = [.GetManagedResourceQuota exampleKey] :=
  have h := Reconcile_deleted_owner_short_circuit goLib
    ⟨Cluster.client ⟨[], fiveNodes, [enforcedWith none]⟩, exampleScheme⟩ exampleRequest
    (notFoundError exampleKey) rfl rfl
  ⟨rfl, rfl, h.1, h.2.1⟩

/-- C10. Collaborator errors propagate: when a client call that `Reconcile` issues is
answered with an error `e` (for the two Gets: an error other than not-found),
`Reconcile` returns exactly `e` with `Result{}` (Requeue false) and that call is the last
call of the run; in particular a failed node List leads to no Create and no Update. -/
theorem Reconcile_propagates_collaborator_errors {T : Type} (lib : TemplateLibrary T)
    (r : ManagedResourceQuotaReconciler) (req : Request) (call : Call) (e : APIError)
    (hcall : call ∈ (Reconcile lib r req).calls)
    (herr : r.Client.errorOf call = some e)
    (hnot : ¬ (call.isGet = true ∧ IsNotFound e = true)) :
    (Reconcile lib r req).outcome = .returned (⟨false, 0⟩, some e) ∧
    (Reconcile lib r req).calls.getLast? = some call ∧
    (call = .ListNodes →
      (Reconcile lib r req).creates = [] ∧ (Reconcile lib r req).updates = []) := by
  unfold Reconcile at hcall ⊢
  rcases h1 : r.Client.GetManagedResourceQuota req.NamespacedName with err | owner
  · simp only [h1] at hcall ⊢
    by_cases hnf : IsNotFound err = true
    · simp [hnf] at hcall ⊢
      subst hcall
      simp [Client.errorOf, h1] at herr
      subst herr
      simp [Call.isGet, hnf] at hnot
    · simp [hnf] at hcall ⊢
      subst hcall
      simp [Client.errorOf, h1] at herr
      subst herr
      simp [Result.empty, Run.creates, Run.updates]
  · simp only [h1] at hcall ⊢
    rcases h2 : r.Client.ListNodes with err | nodeList
    · simp only [h2] at hcall ⊢
      simp at hcall
      rcases hcall with rfl | rfl
      · simp [Client.errorOf, h1] at herr
      · simp [Client.errorOf, h2] at herr
        subst herr
        simp [Result.empty, Run.creates, Run.updates]
    · simp only [h2] at hcall ⊢
      rcases h3 : r.Client.GetResourceQuota ⟨owner.Meta.Namespace, owner.Meta.Name⟩ with err | found
      · simp only [h3] at hcall ⊢
        by_cases hnf : IsNotFound err = true
        · simp only [hnf, if_true] at hcall ⊢
          rcases h4 : resourcequotaforManagedResourceQuota lib r owner nodeList.length with rq | msg
          · simp only [h4] at hcall ⊢
            rcases h5 : r.Client.Create rq with _ | err5
            · simp [h5] at hcall ⊢
              rcases hcall with rfl | rfl | rfl | rfl
              · simp [Client.errorOf, h1] at herr
              · simp [Client.errorOf, h2] at herr
              · simp [Client.errorOf, h3] at herr
                subst herr
                simp [Call.isGet, hnf] at hnot
              · simp [Client.errorOf, h5] at herr
            · simp [h5] at hcall ⊢
              rcases hcall with rfl | rfl | rfl | rfl
              · simp [Client.errorOf, h1] at herr
              · simp [Client.errorOf, h2] at herr
              · simp [Client.errorOf, h3] at herr
                subst herr
                simp [Call.isGet, hnf] at hnot
              · simp [Client.errorOf, h5] at herr
                subst herr
                simp [Result.empty]
          · simp [h4] at hcall ⊢
            rcases hcall with rfl | rfl | rfl
            · simp [Client.errorOf, h1] at herr
            · simp [Client.errorOf, h2] at herr
            · simp [Client.errorOf, h3] at herr
              subst herr
              simp [Call.isGet, hnf] at hnot
        · simp [hnf] at hcall ⊢
          rcases hcall with rfl | rfl | rfl
          · simp [Client.errorOf, h1] at herr
          · simp [Client.errorOf, h2] at herr
          · simp [Client.errorOf, h3] at herr
            subst herr
            simp [Result.empty]
      · simp only [h3] at hcall ⊢
        rcases h4 : renderHardLimits lib owner.Spec.Template.Hard nodeList.length with hard | msg
        · simp only [h4, reflectDeepEqual_distinct_types] at hcall ⊢
          rcases h5 : r.Client.Update { found with Spec := { found.Spec with Hard := hard } } with _ | err5
          · simp [h5] at hcall ⊢
            rcases hcall with rfl | rfl | rfl | rfl
            · simp [Client.errorOf, h1] at herr
            · simp [Client.errorOf, h2] at herr
            · simp [Client.errorOf, h3] at herr
            · simp [Client.errorOf, h5] at herr
          · simp [h5] at hcall ⊢
            rcases hcall with rfl | rfl | rfl | rfl
            · simp [Client.errorOf, h1] at herr
            · simp [Client.errorOf, h2] at herr
            · simp [Client.errorOf, h3] at herr
            · simp [Client.errorOf, h5] at herr
              subst herr
              simp [Result.empty]
        · simp [h4] at hcall ⊢
          rcases hcall with rfl | rfl | rfl
          · simp [Client.errorOf, h1] at herr
          · simp [Client.errorOf, h2] at herr
          · simp [Client.errorOf, h3] at herr

/-- Witness of C10: the node listing of the example cluster fails with a timeout. -/
theorem Reconcile_propagates_collaborator_errors_witness :
    Call.ListNodes ∈
      (Reconcile goLib ⟨listFailingClient, exampleScheme⟩ exampleRequest).calls ∧
    listFailingClient.errorOf .ListNodes = some serverTimeout ∧
    (Reconcile goLib ⟨listFailingClient, exampleScheme⟩ exampleRequest).outcome =
      .returned (⟨false, 0⟩, some serverTimeout) ∧
    (Reconcile goLib ⟨listFailingClient, exampleScheme⟩ exampleRequest).calls.getLast? =
      some .ListNodes ∧
    (Reconcile goLib ⟨listFailingClient, exampleScheme⟩ exampleRequest).creates = [] :=
  have h := Reconcile_propagates_collaborator_errors goLib
    ⟨listFailingClient, exampleScheme⟩ exampleRequest .ListNodes serverTimeout
    (by decide) rfl (by decide)
  ⟨by decide, rfl, h.1, h.2.1, (h.2.2 rfl).1⟩

/-- C8. Update touches only hard: when the enforced ResourceQuota exists and its
`Spec.Hard` is not deeply equal to the limits rendered for the number of listed nodes,
`Reconcile` issues exactly one Update, of an object whose `Spec.Hard` is the rendered
limits and whose metadata (name, namespace, labels, owner references), `Spec.Scopes`,
`Spec.ScopeSelector` and status are those of the fetched object; it issues no Create, and
when the Update succeeds it returns `Result{Requeue: true}` with a nil error. -/
theorem Reconcile_update_touches_only_hard {T : Type} (lib : TemplateLibrary T)
    (r : ManagedResourceQuotaReconciler) (req : Request) (owner : ManagedResourceQuota)
    (nodeList : List Node) (found : ResourceQuota) (hard : QuantityMap)
    (hget : r.Client.GetManagedResourceQuota req.NamespacedName = .ok owner)
    (hlist : r.Client.ListNodes = .ok nodeList)
    (hfound : r.Client.GetResourceQuota ⟨owner.Meta.Namespace, owner.Meta.Name⟩ = .ok found)
    (hrender : renderHardLimits lib owner.Spec.Template.Hard nodeList.length = .returned hard)
    (_hdiff : deepValueEqual found.Spec.Hard hard = false) :
    ∃ obj : ResourceQuota,
      (Reconcile lib r req).updates = [obj] ∧
      obj.Spec.Hard = hard ∧
      obj.Meta = found.Meta ∧
      obj.Spec.Scopes = found.Spec.Scopes ∧
      obj.Spec.ScopeSelector = found.Spec.ScopeSelector ∧
      obj.Status = found.Status ∧
      (Reconcile lib r req).creates = [] ∧
      (r.Client.Update obj = none →
        (Reconcile lib r req).outcome = .returned (⟨true, 0⟩, none)) := by
  refine ⟨{ found with Spec := { found.Spec with Hard := hard } }, ?_⟩
  rw [Reconcile_of_found lib r req owner nodeList found hard hget hlist hfound hrender]
  refine ⟨by simp [Run.updates], rfl, rfl, rfl, rfl, rfl, by simp [Run.creates], ?_⟩
  intro hok
  simp [hok, Result.requeue]

/-- Witness of C8: the example cluster has five nodes and an enforced quota of three
pods. -/
theorem Reconcile_update_touches_only_hard_witness :
    deepValueEqual staleQuota.Spec.Hard (some [("pods", Quantity.ofNat 5)]) = false ∧
    ∃ obj : ResourceQuota,
      (Reconcile goLib ⟨(clusterWith podsTemplate [staleQuota]).client, exampleScheme⟩
        exampleRequest).updates = [obj] ∧
      obj.Spec.Hard = some [("pods", Quantity.ofNat 5)] ∧
      obj.Meta = staleQuota.Meta :=
  have h := Reconcile_update_touches_only_hard goLib
    ⟨(clusterWith podsTemplate [staleQuota]).client, exampleScheme⟩ exampleRequest
    (ownerWith podsTemplate) fiveNodes staleQuota (some [("pods", Quantity.ofNat 5)])
    rfl rfl rfl (by decide) (by decide)
  ⟨by decide, h.elim fun obj ho => ⟨obj, ho.1, ho.2.1, ho.2.2.1⟩⟩

/-- C9. Creation on absence: when the desired object exists, node listing succeeds with
n items, the enforced ResourceQuota is not found and `renderHardLimits(template.Hard, n)`
returns a value, the reconciler, whose scheme has the ManagedResourceQuota type
registered (`init` of the API package registers it), issues exactly one Create (and no
Update) of an object with the desired object's name and namespace, labels exactly
`app.kubernetes.io/managed-by: k8s-resourcequota-autoscaler` and
`app.kubernetes.io/name: <name>`, `Spec.Hard` equal to `renderHardLimits(template.Hard,
n)`, `Spec.Scopes` and `Spec.ScopeSelector` copied from the template, and a controller
owner reference to the desired object; when the Create succeeds it returns
`Result{Requeue: true}` with a nil error. -/
theorem Reconcile_creates_when_absent {T : Type} (lib : TemplateLibrary T)
    (r : ManagedResourceQuotaReconciler) (req : Request) (owner : ManagedResourceQuota)
    (nodeList : List Node) (err : APIError) (hard : QuantityMap) (gvk : GroupVersionKind)
    (hget : r.Client.GetManagedResourceQuota req.NamespacedName = .ok owner)
    (hlist : r.Client.ListNodes = .ok nodeList)
    (hquota : r.Client.GetResourceQuota ⟨owner.Meta.Namespace, owner.Meta.Name⟩ = .error err)
    (hnf : IsNotFound err = true)
    (hrender : renderHardLimits lib owner.Spec.Template.Hard nodeList.length = .returned hard)
    (hscheme : r.Scheme.managedResourceQuotaKind = some gvk) :
    ∃ rq : ResourceQuota,
      (Reconcile lib r req).creates = [rq] ∧
      (Reconcile lib r req).updates = [] ∧
      rq.Meta.Name = owner.Meta.Name ∧
      rq.Meta.Namespace = owner.Meta.Namespace ∧
      rq.Meta.Labels = some [("app.kubernetes.io/managed-by", "k8s-resourcequota-autoscaler"),
        ("app.kubernetes.io/name", owner.Meta.Name)] ∧
      rq.Spec.Hard = hard ∧
      rq.Spec.Scopes = owner.Spec.Template.Scopes ∧
      rq.Spec.ScopeSelector = owner.Spec.Template.ScopeSelector ∧
      rq.Meta.OwnerReferences =
        [⟨gvk.apiVersion, gvk.Kind, owner.Meta.Name, owner.Meta.UID, some true, some true⟩] ∧
      (r.Client.Create rq = none →
        (Reconcile lib r req).outcome = .returned (⟨true, 0⟩, none)) := by
  have hbuild := resourcequotafor_of_render lib r owner nodeList.length hard gvk hrender hscheme
  rw [Reconcile_of_absent lib r req owner nodeList err _ hget hlist hquota hnf hbuild]
  refine ⟨_, rfl, by simp [Run.updates], rfl, rfl, rfl, rfl, rfl, rfl, rfl, ?_⟩
  intro hok
  simp [hok, Result.requeue]

/-- Witness of C9: the example cluster with five nodes and no enforced quota. -/
theorem Reconcile_creates_when_absent_witness :
    (clusterWith podsTemplate []).client.GetResourceQuota exampleKey =
      .error (notFoundError exampleKey) ∧
    renderHardLimits goLib podsTemplate 5 = .returned (some [("pods", Quantity.ofNat 5)]) ∧
    ∃ rq : ResourceQuota,
      (Reconcile goLib ⟨(clusterWith podsTemplate []).client, exampleScheme⟩
        exampleRequest).creates = [rq] ∧
      rq.Spec.Hard = some [("pods", Quantity.ofNat 5)] ∧
      rq.Meta.OwnerReferences =
        [⟨"k8s-resourcequota-autoscaler.m21r.de/v1beta1", "ManagedResourceQuota",
          "team-quota", "7f1c", some true, some true⟩] :=
  have h := Reconcile_creates_when_absent goLib
    ⟨(clusterWith podsTemplate []).client, exampleScheme⟩ exampleRequest
    (ownerWith podsTemplate) fiveNodes (notFoundError exampleKey)
    (some [("pods", Quantity.ofNat 5)])
    ⟨"k8s-resourcequota-autoscaler.m21r.de", "v1beta1", "ManagedResourceQuota"⟩
    rfl rfl rfl rfl (by decide) rfl
  ⟨rfl, by decide, h.elim fun rq hr =>
    ⟨rq, hr.1, hr.2.2.2.2.2.1, hr.2.2.2.2.2.2.2.2.1⟩⟩

/-! ## Lemmas on maps and on `renderHardLimits` -/

/-- Assigning a key that the table lacks appends it. -/
theorem mapKeys_mapSet_of_not_mem {ν : Type} (m : List (String × ν)) (k : String) (v : ν)
    (h : k ∉ mapKeys m) : mapKeys (mapSet m k v) = mapKeys m ++ [k] := by
  induction m with
  | nil => simp [mapSet, mapKeys]
  | cons p rest ih =>
    obtain ⟨k', v'⟩ := p
    simp only [mapKeys, List.map_cons, List.mem_cons, not_or] at h
    have hne : ¬ k' = k := fun e => h.1 e.symm
    have ih' := ih (by simpa [mapKeys] using h.2)
    simp only [mapKeys] at ih'
    simp [mapSet, mapKeys, hne, ih']

/-- Reading back the key just assigned. -/
theorem mapGet_mapSet_self {ν : Type} (m : List (String × ν)) (k : String) (v : ν) :
    mapGet (mapSet m k v) k = some v := by
  induction m with
  | nil => simp [mapSet, mapGet]
  | cons p rest ih =>
    obtain ⟨k', v'⟩ := p
    by_cases hk : k' = k <;> simp [mapSet, mapGet, hk, ih]

/-- Assigning a key leaves the other keys as they were. -/
theorem mapGet_mapSet_of_ne {ν : Type} (m : List (String × ν)) (k k' : String) (v : ν)
    (h : k' ≠ k) : mapGet (mapSet m k v) k' = mapGet m k' := by
  induction m with
  | nil => simp [mapSet, mapGet, h.symm]
  | cons p rest ih =>
    obtain ⟨k₀, v₀⟩ := p
    by_cases hk : k₀ = k
    · subst hk
      simp [mapSet, mapGet, h.symm]
    · by_cases hk' : k₀ = k'
      · subst hk'
        simp [mapSet, mapGet, hk]
      · simp [mapSet, mapGet, hk, hk', ih]

/-- The loop of `renderHardLimits` over entries that all parse and execute, with keys
that are distinct and not yet in the map: it returns a non-nil map that extends the
given one by the keys visited, each with the first result of `ParseQuantity`. -/
theorem renderLoop_of_all_execute {T : Type} (lib : TemplateLibrary T) (nodes : Nat)
    (hard : ResourceList) (m₀ : List (ResourceName × Quantity))
    (hkeys : (mapKeys hard).Nodup)
    (hfresh : ∀ k ∈ mapKeys hard, k ∉ mapKeys m₀)
    (hexec : ∀ p ∈ hard, ∃ t out, lib.Parse p.2 = .ok t ∧ lib.Execute t nodes = .ok out) :
    ∃ m, renderLoop lib nodes hard m₀ = .returned (some m) ∧
      mapKeys m = mapKeys m₀ ++ mapKeys hard ∧
      (∀ k, k ∉ mapKeys hard → mapGet m k = mapGet m₀ k) ∧
      (∀ key element t out, (key, element) ∈ hard → lib.Parse element = .ok t →
        lib.Execute t nodes = .ok out → mapGet m key = some (lib.firstResult out)) := by
  induction hard generalizing m₀ with
  | nil => exact ⟨m₀, rfl, by simp [mapKeys], fun _ _ => rfl, by simp⟩
  | cons p rest ih =>
    obtain ⟨key, element⟩ := p
    obtain ⟨t, out, hp, he⟩ := hexec (key, element) (List.mem_cons_self _ _)
    simp only [mapKeys, List.map_cons, List.nodup_cons] at hkeys
    have hkey : key ∉ mapKeys m₀ := hfresh key (by simp [mapKeys])
    have hset := mapKeys_mapSet_of_not_mem m₀ key (lib.firstResult out) hkey
    obtain ⟨m, hm, hk, hold, hnew⟩ := ih (mapSet m₀ key (lib.firstResult out)) hkeys.2
      (by
        intro k hkr
        rw [hset]
        simp only [List.mem_append, List.mem_singleton, not_or]
        refine ⟨hfresh k (by simp only [mapKeys, List.map_cons, List.mem_cons]; exact Or.inr hkr), ?_⟩
        rintro rfl
        exact hkeys.1 hkr)
      (fun q hq => hexec q (List.mem_cons_of_mem _ hq))
    refine ⟨m, ?_, ?_, ?_, ?_⟩
    · simp only [renderLoop, hp, he]
      exact hm
    · rw [hk, hset]
      simp [mapKeys]
    · intro k hkn
      simp only [mapKeys, List.map_cons, List.mem_cons, not_or] at hkn
      rw [hold k hkn.2, mapGet_mapSet_of_ne _ _ _ _ hkn.1]
    · intro key' element' t' out' hmem hp' he'
      rcases List.mem_cons.1 hmem with heq | hin
      · obtain ⟨rfl, rfl⟩ := Prod.mk.inj heq
        rw [hp] at hp'
        obtain rfl := Except.ok.inj hp'
        rw [he] at he'
        obtain rfl := Except.ok.inj he'
        rw [hold _ hkeys.1, mapGet_mapSet_self]
      · exact hnew key' element' t' out' hin hp' he'

/-- The digit characters are digits, with their value. -/
theorem digitChar_spec : ∀ d, d < 10 →
    (digitChar d).isDigit = true ∧ (digitChar d).toNat - 48 = d := by
  decide

/-- Reading the digits that `formatDigits` wrote gives the number back. -/
theorem readDigits_formatDigits (fuel n : Nat) (acc : List Char) (h : n < fuel) :
    readDigits (formatDigits fuel n acc) 0 = readDigits acc n := by
  induction fuel generalizing n acc with
  | zero => omega
  | succ fuel ih =>
    unfold formatDigits
    by_cases hn : n < 10
    · simp [hn, readDigits, (digitChar_spec n hn).1, (digitChar_spec n hn).2]
    · have hd := digitChar_spec (n % 10) (Nat.mod_lt _ (by decide))
      rw [if_neg hn, ih (n / 10) _ (by omega)]
      simp only [readDigits, hd.1, hd.2, if_true]
      congr 1
      omega

/-- The numeral `formatDigits` writes is not empty. -/
theorem formatDigits_ne_nil (fuel n : Nat) (acc : List Char) (h : 0 < fuel ∨ acc ≠ []) :
    formatDigits fuel n acc ≠ [] := by
  induction fuel generalizing n acc with
  | zero =>
    rcases h with h | h
    · omega
    · simpa [formatDigits] using h
  | succ fuel ih =>
    unfold formatDigits
    by_cases hn : n < 10
    · simp [hn]
    · rw [if_neg hn]
      exact ih _ _ (Or.inr (by simp))

/-- The fragment of `ParseQuantity` reads the numeral of `n` as the quantity `n`. -/
theorem parseQuantityDigits_formatInt (n : Nat) :
    parseQuantityDigits (String.mk (formatInt n)) = .ok (Quantity.ofNat n) := by
  have hne : formatInt n ≠ [] := formatDigits_ne_nil _ _ _ (Or.inl (Nat.succ_pos n))
  have hread : readDigits (formatInt n) 0 = some n := by
    unfold formatInt
    rw [readDigits_formatDigits _ _ _ (Nat.lt_succ_self n)]
    rfl
  simp [parseQuantityDigits, hne, hread]

/-- When `Parse` fails on the first entry visited, `renderHardLimits` panics. -/
theorem renderHardLimits_panics_of_parse_error {T : Type} (lib : TemplateLibrary T)
    (key : ResourceName) (element : String) (rest : ResourceList) (nodes : Nat) (err : String)
    (h : lib.Parse element = .error err) :
    renderHardLimits lib ((key, element) :: rest) nodes = .panicked err := by
  simp [renderHardLimits, renderLoop, h]

/-- When `Execute` fails on the first entry visited, `renderHardLimits` returns nil. -/
theorem renderHardLimits_nil_of_execute_error {T : Type} (lib : TemplateLibrary T)
    (key : ResourceName) (element : String) (rest : ResourceList) (nodes : Nat) (t : T)
    (err : String) (hp : lib.Parse element = .ok t) (he : lib.Execute t nodes = .error err) :
    renderHardLimits lib ((key, element) :: rest) nodes = .returned none := by
  simp [renderHardLimits, renderLoop, hp, he]

/-- A template of one entry that parses and executes renders to the one-entry map
with the first result of `ParseQuantity` on the text written. -/
theorem renderHardLimits_single {T : Type} (lib : TemplateLibrary T) (key : ResourceName)
    (element : String) (nodes : Nat) (t : T) (out : String)
    (hp : lib.Parse element = .ok t) (he : lib.Execute t nodes = .ok out) :
    renderHardLimits lib [(key, element)] nodes =
      .returned (some [(key, lib.firstResult out)]) := by
  simp [renderHardLimits, renderLoop, hp, he, mapSet]

/-! ## Claims about `renderHardLimits` -/

/-- C6. Correct scaling: for every node count n, `renderHardLimits` of the template
`{"pods": "{{.Nodes}}"}` and n returns the map with the one key `pods`, whose value is
the quantity n; n = 5 gives `{"pods": 5}` and n = 0 gives `{"pods": 0}`. -/
theorem renderHardLimits_scales_with_nodes (n : Nat) :
    renderHardLimits goLib podsTemplate n = .returned (some [("pods", Quantity.ofNat n)]) ∧
    renderHardLimits goLib podsTemplate 5 = .returned (some [("pods", ⟨5, 0, "DecimalSI"⟩)]) ∧
    renderHardLimits goLib podsTemplate 0 = .returned (some [("pods", ⟨0, 0, "DecimalSI"⟩)]) := by
  have hall : ∀ k, renderHardLimits goLib podsTemplate k =
      .returned (some [("pods", Quantity.ofNat k)]) := by
    intro k
    have hq : goLib.firstResult (String.mk (formatInt k)) = Quantity.ofNat k := by
      simp [TemplateLibrary.firstResult, goLib, parseQuantityDigits_formatInt]
    rw [← hq]
    exact renderHardLimits_single goLib "pods" _ k [.field "Nodes".data] _ rfl
      (by simp [goLib, executeNodes])
  exact ⟨hall n, hall 5, hall 0⟩


/-- C7 as stated fails: in the template `{"pods": "many", "services": "{{.Nodes}}"}`
the first expression evaluates to the text `many`, which `ParseQuantity` rejects, and
the map `renderHardLimits` returns contains the key `pods`, with the zero Quantity. -/
theorem renderHardLimits_keeps_unparseable_counterexample :
    goLib.Parse "many" = .ok [.text "many".data] ∧
    goLib.Execute [.text "many".data] 12 = .ok "many" ∧
    goLib.ParseQuantity "many" = .error "quantities must match the regular expression" ∧
    renderHardLimits goLib wordTemplate 12 =
      .returned (some [("pods", ⟨0, 0, ""⟩), ("services", ⟨12, 0, "DecimalSI"⟩)]) ∧
    mapGet [("pods", (⟨0, 0, ""⟩ : Quantity)), ("services", ⟨12, 0, "DecimalSI"⟩)] "pods" ≠
      none :=
  ⟨rfl, rfl, rfl, by decide, by decide⟩

/-- C7, amended. Unparseable quantity is kept as zero: for every template with distinct
keys in which all expressions parse and evaluate, `renderHardLimits` raises no error and
returns a non-nil map whose keys are exactly the keys of the template; an entry whose
rendered text `ParseQuantity` accepts maps to the parsed quantity, and an entry whose
rendered text `ParseQuantity` rejects maps to the zero value `Quantity{}`. -/
theorem renderHardLimits_keeps_unparseable {T : Type} (lib : TemplateLibrary T)
    (hard : ResourceList) (nodes : Nat)
    (hkeys : (mapKeys hard).Nodup)
    (hexec : ∀ p ∈ hard, ∃ t out, lib.Parse p.2 = .ok t ∧ lib.Execute t nodes = .ok out) :
    ∃ m, renderHardLimits lib hard nodes = .returned (some m) ∧
      mapKeys m = mapKeys hard ∧
      ∀ key element t out, (key, element) ∈ hard → lib.Parse element = .ok t →
        lib.Execute t nodes = .ok out →
        (∀ q, lib.ParseQuantity out = .ok q → mapGet m key = some q) ∧
        (∀ e, lib.ParseQuantity out = .error e → mapGet m key = some ⟨0, 0, ""⟩) := by
  obtain ⟨m, hm, hk, _, hnew⟩ := renderLoop_of_all_execute lib nodes hard [] hkeys
    (by simp [mapKeys]) hexec
  refine ⟨m, hm, by simpa [mapKeys] using hk, ?_⟩
  intro key element t out hmem hp he
  have hget := hnew key element t out hmem hp he
  constructor
  · intro q hq
    simpa [TemplateLibrary.firstResult, hq] using hget
  · intro e hq
    simpa [TemplateLibrary.firstResult, hq, Quantity.zero] using hget

/-- Witness of C7, amended: the template `{"pods": "many", "services": "{{.Nodes}}"}`
with twelve nodes. -/
theorem renderHardLimits_keeps_unparseable_witness :
    (mapKeys wordTemplate).Nodup ∧
    ∃ m, renderHardLimits goLib wordTemplate 12 = .returned (some m) ∧
      mapKeys m = ["pods", "services"] ∧
      mapGet m "pods" = some ⟨0, 0, ""⟩ ∧
      mapGet m "services" = some ⟨12, 0, "DecimalSI"⟩ :=
  have hkeys : (mapKeys wordTemplate).Nodup := by decide
  have h := renderHardLimits_keeps_unparseable goLib wordTemplate 12 hkeys (by
    intro p hp
    simp only [wordTemplate, List.mem_cons, List.mem_singleton, List.mem_nil_iff,
      or_false] at hp
    rcases hp with rfl | rfl
    · exact ⟨[.text "many".data], "many", rfl, rfl⟩
    · exact ⟨[.field "Nodes".data], "12", rfl, rfl⟩)
  ⟨hkeys, h.elim fun m hm => ⟨m, hm.1, hm.2.1,
    (hm.2.2 "pods" "many" [.text "many".data] "many" (by decide) rfl rfl).2 _ rfl,
    (hm.2.2 "services" "\x7b\x7b.Nodes\x7d\x7d" [.field "Nodes".data] "12" (by decide)
      rfl rfl).1 _ rfl⟩⟩

/-! ## The code at the inputs where it departs from the claims -/

/-- C4, at a failing input: the expression `{{` has invalid template syntax; `Parse`
rejects it, `renderHardLimits` panics, and `Reconcile` panics after its three reads,
both when the enforced object exists and when it does not. No Create or Update is
issued. -/
theorem Reconcile_panics_on_invalid_syntax :
    goLib.Parse "\x7b\x7b" = .error "unclosed action" ∧
    renderHardLimits goLib unclosedTemplate 5 = .panicked "unclosed action" ∧
    Reconcile goLib ⟨(clusterWith unclosedTemplate [currentQuota]).client, exampleScheme⟩
        exampleRequest =
      ⟨[.GetManagedResourceQuota exampleKey, .ListNodes, .GetResourceQuota exampleKey],
        .panicked "unclosed action"⟩ ∧
    Reconcile goLib ⟨(clusterWith unclosedTemplate []).client, exampleScheme⟩
        exampleRequest =
      ⟨[.GetManagedResourceQuota exampleKey, .ListNodes, .GetResourceQuota exampleKey],
        .panicked "unclosed action"⟩ :=
  ⟨rfl, by decide, by decide, by decide⟩

/-- C3, at a failing input: the expression `{{.Missing}}` parses and fails to evaluate.
`renderHardLimits` returns nil without an error, and `Reconcile` returns
`Result{Requeue: true}` with a nil error after an Update that sets `Spec.Hard` of the
existing enforced object to nil (or, when there is none, after a Create with a nil
`Spec.Hard`). -/
theorem Reconcile_writes_nil_on_render_failure :
    goLib.Parse "\x7b\x7b.Missing\x7d\x7d" = .ok [.field "Missing".data] ∧
    goLib.Execute [.field "Missing".data] 5 = .error "can not evaluate field" ∧
    renderHardLimits goLib missingFieldTemplate 5 = .returned none ∧
    (Reconcile goLib ⟨(clusterWith missingFieldTemplate [currentQuota]).client,
        exampleScheme⟩ exampleRequest).updates = [enforcedHardNil] ∧
    (Reconcile goLib ⟨(clusterWith missingFieldTemplate [currentQuota]).client,
        exampleScheme⟩ exampleRequest).outcome = .returned (⟨true, 0⟩, none) ∧
    (Cluster.reconcile goLib exampleScheme (clusterWith missingFieldTemplate [currentQuota])
        exampleRequest).2.enforcedHard exampleKey = some none ∧
    ((Reconcile goLib ⟨(clusterWith missingFieldTemplate []).client, exampleScheme⟩
        exampleRequest).creates.map fun rq => rq.Spec.Hard) = [none] ∧
    (Reconcile goLib ⟨(clusterWith missingFieldTemplate []).client, exampleScheme⟩
        exampleRequest).outcome = .returned (⟨true, 0⟩, none) :=
  ⟨rfl, rfl, by decide, by decide, by decide, by decide, by decide, by decide⟩

/-- C2, at a failing input: the enforced object holds `{"pods": 5}`, which is what
`renderHardLimits` returns for the template and the five nodes; `Reconcile` still issues
an Update (of the same content) and returns `Result{Requeue: true}`. -/
theorem Reconcile_updates_on_equal_limits :
    renderHardLimits goLib podsTemplate 5 = .returned (some [("pods", ⟨5, 0, "DecimalSI"⟩)]) ∧
    currentQuota.Spec.Hard = some [("pods", ⟨5, 0, "DecimalSI"⟩)] ∧
    deepValueEqual currentQuota.Spec.Hard (some [("pods", ⟨5, 0, "DecimalSI"⟩)]) = true ∧
    Reconcile goLib ⟨(clusterWith podsTemplate [currentQuota]).client, exampleScheme⟩
        exampleRequest =
      ⟨[.GetManagedResourceQuota exampleKey, .ListNodes, .GetResourceQuota exampleKey,
        .Update currentQuota], .returned (⟨true, 0⟩, none)⟩ :=
  ⟨by decide, by decide, by decide, by decide⟩

/-- C1, at a failing input: in a cluster with the desired object `{"pods":
"{{.Nodes}}"}`, five nodes and no enforced object, the first `Reconcile` call creates the
enforced object; the second call, and the third, each issue an Update and return
`Result{Requeue: true}`, while the hard mapping stays `{"pods": 5}`. -/
theorem Reconcile_second_call_updates_again :
    (Cluster.reconcile goLib exampleScheme (clusterWith podsTemplate [])
        exampleRequest).1.creates.length = 1 ∧
    afterFirstCall.enforcedHard exampleKey = some (some [("pods", ⟨5, 0, "DecimalSI"⟩)]) ∧
    (Cluster.reconcile goLib exampleScheme afterFirstCall exampleRequest).1.creates = [] ∧
    (Cluster.reconcile goLib exampleScheme afterFirstCall exampleRequest).1.updates.length
      = 1 ∧
    (Cluster.reconcile goLib exampleScheme afterFirstCall exampleRequest).1.outcome =
      .returned (⟨true, 0⟩, none) ∧
    afterSecondCall.enforcedHard exampleKey = some (some [("pods", ⟨5, 0, "DecimalSI"⟩)]) ∧
    (Cluster.reconcile goLib exampleScheme afterSecondCall exampleRequest).1.updates.length
      = 1 ∧
    (Cluster.reconcile goLib exampleScheme afterSecondCall exampleRequest).1.outcome =
      .returned (⟨true, 0⟩, none) :=
  ⟨by decide, by decide, by decide, by decide, by decide, by decide, by decide, by decide⟩

end ResourceQuotaAutoscaler
